import Mathlib

/-!
Verification of the geographic-analysis core of the coronavirus-tracker-api
repository: spatial clustering (`app/services/geographic_analysis.py`,
`app/utils/geo.py`), spread-vector derivation (`app/utils/analysis.py`,
`GeographicAnalyzer.calculate_spread_vectors`), and heatmap data assembly
(`app/utils/visualization.py`, `GeographicAnalyzer.generate_risk_heatmap`).

Modelling conventions:
* Python floats are modelled as `ℚ` where the code only stores, compares and
  averages them, and as `ℝ` where trigonometry is involved (the haversine
  distances and the DBSCAN metric).
* ISO-8601 timestamps are modelled as integers (days); the code's string
  round-trip `isoformat`/`fromisoformat` preserves the instant, and
  lexicographic order of uniformly-formatted ISO strings is chronological
  order, so sorting and exact-key lookup are faithfully represented.
* Python `dict`s keyed by timestamps / coordinates are modelled as
  association lists with first-match lookup (dict keys are unique).
* A function that can raise is modelled with `Except String`; a function
  documented to return `None` is modelled with `Option`.
-/

namespace CovidGeo

/-- `GeoLocation` dataclass from `app/services/geographic_analysis.py`. -/
structure GeoLocation where
  latitude : ℚ
  longitude : ℚ
  cases : ℤ
  timestamp : ℤ
  location_id : String
  deriving DecidableEq, Repr

instance : Inhabited GeoLocation := ⟨⟨0, 0, 0, 0, ""⟩⟩

/-! ## Spread vector (`app/utils/analysis.py`, `calculate_spread_vector`) -/

/-- A location as consumed by `calculate_spread_vector`: it reads
`location.timelines.confirmed.timeline` (a timestamp → cumulative-cases dict)
and `location.id`. -/
structure TimelineLocation where
  id : String
  timeline : List (ℤ × ℤ)
  deriving DecidableEq, Repr

/-- The dictionary returned by `calculate_spread_vector`. -/
structure SpreadVector where
  start_date : ℤ
  end_date : ℤ
  start_cases : ℤ
  end_cases : ℤ
  total_increase : ℤ
  daily_increase : ℚ
  location_id : String
  deriving DecidableEq, Repr

/-- Exact-key lookup in the timeline dict: `timeline[t]` / `t in timeline`.
No interpolation: only a key equal to `t` matches. -/
def lookupTL (tl : List (ℤ × ℤ)) (t : ℤ) : Option ℤ :=
  (tl.find? fun p => p.1 = t).map Prod.snd

/-- Stable insertion into an ascending list, used to model Python's
`sorted(timeline.keys())` (dict keys are distinct, so any correct ascending
sort yields the same list). -/
def insertAsc (x : ℤ) : List ℤ → List ℤ
  | [] => [x]
  | y :: ys => if x ≤ y then x :: y :: ys else y :: insertAsc x ys

/-- `sorted(keys)`: ascending sort of the timeline keys. -/
def sortKeys (l : List ℤ) : List ℤ := l.foldr insertAsc []

/-- `calculate_spread_vector` from `app/utils/analysis.py`.

Line by line: `dates = sorted(timeline.keys())`; empty → `None`;
`end_date = dates[-1]`; `start_date = end_date - timedelta(days=days)`;
`if start_date not in timeline: return None`; otherwise build the result
dict with `total_increase = end_cases - start_cases` and
`daily_increase = total_increase / days` (true division).
The lookup of `end_date` always succeeds (it is a key); a failure there
would be a `KeyError`, which the surrounding `except` turns into `None`,
hence the final `none` branch. -/
def calculate_spread_vector (loc : TimelineLocation) (days : ℤ) : Option SpreadVector :=
  match (sortKeys (loc.timeline.map Prod.fst)).getLast? with
  | none => none
  | some end_date =>
    match lookupTL loc.timeline (end_date - days), lookupTL loc.timeline end_date with
    | some start_cases, some end_cases =>
        some { start_date := end_date - days
               end_date := end_date
               start_cases := start_cases
               end_cases := end_cases
               total_increase := end_cases - start_cases
               daily_increase := ((end_cases - start_cases : ℤ) : ℚ) / (days : ℚ)
               location_id := loc.id }
    | _, _ => none

/-! ## Heatmap builders (`app/utils/visualization.py` and
`GeographicAnalyzer.generate_risk_heatmap`) -/

/-- The data the code feeds to `folium.Map` / `plugins.HeatMap`: the map
center, the fixed `zoom_start=4`, and the `[lat, lon, weight]` triples. -/
structure FoliumMap where
  center : ℚ × ℚ
  zoom_start : ℕ
  heat_data : List (ℚ × ℚ × ℤ)
  deriving DecidableEq, Repr

/-- `np.mean([loc.latitude for loc in locations])`. -/
def meanLat (locations : List GeoLocation) : ℚ :=
  (locations.map (·.latitude)).sum / locations.length

/-- `np.mean([loc.longitude for loc in locations])`. -/
def meanLon (locations : List GeoLocation) : ℚ :=
  (locations.map (·.longitude)).sum / locations.length

/-- `heat_data = [[loc.latitude, loc.longitude, loc.cases] for loc in locations]`. -/
def heatPoints (locations : List GeoLocation) : List (ℚ × ℚ × ℤ) :=
  locations.map fun l => (l.latitude, l.longitude, l.cases)

/-- `GeographicAnalyzer.generate_risk_heatmap`: raises `ValueError` on an
empty location list (before the center is even examined); otherwise uses the
supplied center or the mean of the coordinates, and builds the heat data from
every location's case count. -/
def generate_risk_heatmap (locations : List GeoLocation) (center : Option (ℚ × ℚ)) :
    Except String FoliumMap :=
  if locations.isEmpty then
    .error "No locations provided for heatmap generation"
  else
    let c := center.getD (meanLat locations, meanLon locations)
    .ok { center := c, zoom_start := 4, heat_data := heatPoints locations }

/-- A location as consumed by `app/utils/visualization.py`: a `coordinates`
attribute and an optional `latest.confirmed` count (`none` models a location
object lacking the `latest`/`confirmed` attributes that the `hasattr` guard
skips). -/
structure UtilLocation where
  latitude : ℚ
  longitude : ℚ
  confirmed : Option ℤ
  deriving DecidableEq, Repr

/-- The `hasattr`-guarded heat data of `create_heatmap`. -/
def utilHeatPoints (locations : List UtilLocation) : List (ℚ × ℚ × ℤ) :=
  locations.filterMap fun l => l.confirmed.map fun c => (l.latitude, l.longitude, c)

/-- `sum(latitudes) / len(locations)` as computed by `create_heatmap`. -/
def utilMeanLat (locations : List UtilLocation) : ℚ :=
  (locations.map (·.latitude)).sum / locations.length

/-- `sum(longitudes) / len(locations)` as computed by `create_heatmap`. -/
def utilMeanLon (locations : List UtilLocation) : ℚ :=
  (locations.map (·.longitude)).sum / locations.length

/-- `create_heatmap` from `app/utils/visualization.py`.

If either center coordinate is missing, the code recomputes *both* from the
data (`sum(...) / len(locations)`), which raises `ZeroDivisionError` when
`locations` is empty; with both coordinates supplied the data may be empty. -/
def create_heatmap (locations : List UtilLocation)
    (center_lat center_lon : Option ℚ) : Except String FoliumMap :=
  if center_lat.isNone || center_lon.isNone then
    if locations.length = 0 then
      .error "ZeroDivisionError: division by zero"
    else
      .ok { center := (utilMeanLat locations, utilMeanLon locations)
            zoom_start := 4
            heat_data := utilHeatPoints locations }
  else
    .ok { center := (center_lat.getD 0, center_lon.getD 0)
          zoom_start := 4
          heat_data := utilHeatPoints locations }

/-- `true` iff the call raised (modelled as `Except.error`). -/
def isFailure {α : Type} (r : Except String α) : Bool :=
  match r with
  | .error _ => true
  | .ok _ => false

/-! ## Service spread vectors
(`GeographicAnalyzer.calculate_spread_vectors`) -/

/-- `df[df['timestamp'].dt.date == d].set_index(['latitude','longitude'])['cases']`:
the first record of `historical` on date `d` with the given coordinate key
(timeline rows with a unique `(lat, lon)` per date, as produced by the data
source). -/
def casesAt (historical : List GeoLocation) (d : ℤ) (k : ℚ × ℚ) : Option ℤ :=
  ((historical.filter fun l => l.timestamp = d).find?
      fun l => (l.latitude, l.longitude) = k).map (·.cases)

/-- Pandas alignment of `end_cases - start_cases`: on the union of the two
coordinate-key index sets; a key present on only one side yields `NaN`
(modelled `none`). -/
def caseChange (historical : List GeoLocation) (startD endD : ℤ) (k : ℚ × ℚ) :
    Option ℤ :=
  match casesAt historical endD k, casesAt historical startD k with
  | some e, some s => some (e - s)
  | _, _ => none

/-- The union index of `case_changes` (pandas sorts the union of the two
indices; the iteration order is immaterial to the verified properties, so the
union is taken end-index-first, deduplicated). -/
def changeKeys (historical : List GeoLocation) (startD endD : ℤ) : List (ℚ × ℚ) :=
  (((historical.filter fun l => l.timestamp = endD).map fun l =>
      (l.latitude, l.longitude)) ++
    ((historical.filter fun l => l.timestamp = startD).map fun l =>
      (l.latitude, l.longitude))).dedup

/-- `GeographicAnalyzer.calculate_spread_vectors`: `end_date` is the maximum
timestamp, `start_date = end_date - timedelta(days=days)`; for every key of
`case_changes` the magnitude is appended unless it equals `0` (a `NaN`
magnitude — key present on only one date — satisfies `magnitude != 0` and is
appended). An empty input raises (`df['timestamp']` on a column-less empty
DataFrame is a `KeyError`). -/
def calculate_spread_vectors (historical : List GeoLocation) (days : ℤ) :
    Except String (List (ℚ × ℚ × Option ℤ)) :=
  match (historical.map (·.timestamp)).max? with
  | none => .error "KeyError: timestamp"
  | some end_date =>
    let start_date := end_date - days
    .ok ((changeKeys historical start_date end_date).filterMap fun k =>
      let magnitude := caseChange historical start_date end_date k
      if magnitude ≠ some 0 then some (k.1, k.2, magnitude) else none)

/-! ## Cluster grouping (`GeographicAnalyzer.identify_clusters`) -/

/-- One step of the grouping loop

    if label not in clusters: clusters[label] = []
    clusters[label].append(location)

on an insertion-ordered dict modelled as an association list: append to the
unique entry with this key, or add a new entry at the end. -/
def insertPair : List (ℤ × List GeoLocation) → ℤ → GeoLocation →
    List (ℤ × List GeoLocation)
  | [], label, loc => [(label, [loc])]
  | (k, v) :: rest, label, loc =>
      if k = label then (k, v ++ [loc]) :: rest
      else (k, v) :: insertPair rest label loc

/-- The whole grouping loop `for label, location in zip(labels, locations)`. -/
def groupByLabel (pairs : List (ℤ × GeoLocation)) : List (ℤ × List GeoLocation) :=
  pairs.foldl (fun acc p => insertPair acc p.1 p.2) []

/-! ## Haversine distances (`app/utils/geo.py` and
`GeographicAnalyzer._haversine_distance`) -/

noncomputable section

open Classical

/-- `math.radians` / `np.radians`: degrees to radians. -/
def deg2rad (x : ℝ) : ℝ := x * (Real.pi / 180)

/-- `math.atan2 y x`: the angle of the point `(x, y)`, in `(-π, π]`. -/
def atan2 (y x : ℝ) : ℝ :=
  if 0 < x then Real.arctan (y / x)
  else if x < 0 then
    if 0 ≤ y then Real.arctan (y / x) + Real.pi
    else Real.arctan (y / x) - Real.pi
  else if 0 < y then Real.pi / 2
  else if y < 0 then -(Real.pi / 2)
  else 0

/-- The haversine term `a = sin²(Δlat/2) + cos(lat1)·cos(lat2)·sin²(Δlon/2)`
shared verbatim by both implementations (inputs in degrees). -/
def hav_a (lat1 lon1 lat2 lon2 : ℝ) : ℝ :=
  Real.sin ((deg2rad lat2 - deg2rad lat1) / 2) ^ 2 +
    Real.cos (deg2rad lat1) * Real.cos (deg2rad lat2) *
      Real.sin ((deg2rad lon2 - deg2rad lon1) / 2) ^ 2

/-- `haversine_distance` from `app/utils/geo.py`:
`c = 2 * atan2(sqrt(a), sqrt(1-a))`, `R = 6371`, distance `R * c`. -/
def haversine_distance (lat1 lon1 lat2 lon2 : ℝ) : ℝ :=
  6371 * (2 * atan2 (Real.sqrt (hav_a lat1 lon1 lat2 lon2))
    (Real.sqrt (1 - hav_a lat1 lon1 lat2 lon2)))

/-- `GeographicAnalyzer._haversine_distance`:
`c = 2 * arcsin(sqrt(a))`, `R = 6371`, distance `R * c`. -/
def _haversine_distance (lat1 lon1 lat2 lon2 : ℝ) : ℝ :=
  6371 * (2 * Real.arcsin (Real.sqrt (hav_a lat1 lon1 lat2 lon2)))

/-! ## DBSCAN labelling

Modelled from the spec: the clustering itself is performed by the external
`sklearn.cluster.DBSCAN` (not part of this repository); the spec's glossary
pins its semantics — "groups points with at least `min_points` neighbors
within radius `eps`; unclustered points are 'noise'" — and `-1` as the noise
label. The model below: a point is *core* when its closed `eps`-neighborhood
(self included) holds at least `min_samples` points; clusters are the
connected components of core points (adjacency: distance `≤ eps`), numbered
`0, 1, …` in order of each component's least core index (sklearn's scan
order); a non-core point adopts the cluster of its least core neighbor, or
the label `-1` when it has none. -/

/-- Size of the closed `eps`-neighborhood of point `i` among points
`0, …, n-1` (distance function `d`). -/
def neighborCount (d : ℕ → ℕ → ℝ) (eps : ℝ) (n i : ℕ) : ℕ :=
  ((Finset.range n).filter fun j => d i j ≤ eps).card

/-- Core point: at least `minPts` points (itself included) within `eps`. -/
def isCorePt (d : ℕ → ℕ → ℝ) (eps : ℝ) (minPts n i : ℕ) : Prop :=
  minPts ≤ neighborCount d eps n i

/-- Direct density-connection between two core points. -/
def coreAdj (d : ℕ → ℕ → ℝ) (eps : ℝ) (minPts n i j : ℕ) : Prop :=
  isCorePt d eps minPts n i ∧ isCorePt d eps minPts n j ∧ d i j ≤ eps

/-- Chains of direct density-connections. -/
def coreConn (d : ℕ → ℕ → ℝ) (eps : ℝ) (minPts n : ℕ) : ℕ → ℕ → Prop :=
  Relation.ReflTransGen (coreAdj d eps minPts n)

/-- The least core index connected to `i` (the component representative). -/
def repOf (d : ℕ → ℕ → ℝ) (eps : ℝ) (minPts n i : ℕ) : ℕ :=
  sInf {j | isCorePt d eps minPts n j ∧ coreConn d eps minPts n i j}

/-- Cluster number of (the component of) point `i`: how many components have
a smaller representative. -/
def clusterIdOf (d : ℕ → ℕ → ℝ) (eps : ℝ) (minPts n i : ℕ) : ℤ :=
  (((Finset.range n).filter fun r =>
      isCorePt d eps minPts n r ∧ repOf d eps minPts n r = r ∧
        repOf d eps minPts n r < repOf d eps minPts n i).card : ℤ)

/-- The DBSCAN label of point `i`: its cluster number if core, the cluster of
its least core neighbor if border, and `-1` (noise) otherwise. -/
def dbscanLabel (d : ℕ → ℕ → ℝ) (eps : ℝ) (minPts n i : ℕ) : ℤ :=
  if isCorePt d eps minPts n i then clusterIdOf d eps minPts n i
  else if ∃ j, j < n ∧ d i j ≤ eps ∧ isCorePt d eps minPts n j then
    clusterIdOf d eps minPts n
      (sInf {j | j < n ∧ d i j ≤ eps ∧ isCorePt d eps minPts n j})
  else -1

/-- `DBSCAN(...).fit_predict`: the label list for points `0, …, n-1`. -/
def dbscanLabels (d : ℕ → ℕ → ℝ) (eps : ℝ) (minPts n : ℕ) : List ℤ :=
  (List.range n).map (dbscanLabel d eps minPts n)

/-! ## `GeographicAnalyzer.identify_clusters` and `geo.dbscan_cluster` -/

/-- `coordinates[i]` as the real pair fed to the metric (degrees, exactly as
the code passes them to sklearn's haversine metric). -/
def coordOf (locations : List GeoLocation) (i : ℕ) : ℝ × ℝ :=
  (((locations.getD i default).latitude : ℝ), ((locations.getD i default).longitude : ℝ))

/-- sklearn's `metric='haversine'`: central angle on the unit sphere, inputs
taken as radians — the code hands it *degree* coordinates unconverted. -/
def sklearnHaversine (p q : ℝ × ℝ) : ℝ :=
  2 * Real.arcsin (Real.sqrt (Real.sin ((q.1 - p.1) / 2) ^ 2 +
    Real.cos p.1 * Real.cos q.1 * Real.sin ((q.2 - p.2) / 2) ^ 2))

/-- The labels produced inside `identify_clusters`:
`DBSCAN(eps=eps_km/111.0, min_samples=min_samples, metric='haversine')`. -/
def serviceLabels (eps_km : ℝ) (min_samples : ℕ) (locations : List GeoLocation) :
    List ℤ :=
  dbscanLabels
    (fun i j => sklearnHaversine (coordOf locations i) (coordOf locations j))
    (eps_km / 111) min_samples locations.length

/-- `GeographicAnalyzer.identify_clusters`: empty input short-circuits to the
empty dict; otherwise every `(label, location)` pair — the noise label `-1`
included — is grouped into the returned dict. -/
def identify_clusters (eps_km : ℝ) (min_samples : ℕ) (locations : List GeoLocation) :
    List (ℤ × List GeoLocation) :=
  if locations.isEmpty then []
  else groupByLabel ((serviceLabels eps_km min_samples locations).zip locations)

instance : Inhabited UtilLocation := ⟨⟨0, 0, none⟩⟩

/-- `loc.coordinates` of the i-th utility location. -/
def utilCoordOf (locations : List UtilLocation) (i : ℕ) : ℝ × ℝ :=
  (((locations.getD i default).latitude : ℝ), ((locations.getD i default).longitude : ℝ))

/-- `geo.dbscan_cluster`: precomputes the pairwise `haversine_distance`
matrix (kilometers) and runs `DBSCAN(eps=eps_km, metric='precomputed')`,
returning the raw label array (`-1` marks noise). -/
def dbscan_cluster (locations : List UtilLocation) (eps_km : ℝ) (min_samples : ℕ) :
    List ℤ :=
  dbscanLabels
    (fun i j => haversine_distance (utilCoordOf locations i).1 (utilCoordOf locations i).2
      (utilCoordOf locations j).1 (utilCoordOf locations j).2)
    eps_km min_samples locations.length

end

/-! ## Sample data used by concrete evaluations -/

/-- New York, from the spec's end-to-end scenario and the repository tests. -/
def nycSample : GeoLocation := ⟨40.7128, -74.0060, 100, 0, "nyc"⟩

/-- Two locations with integer coordinates; their mean center is `(41, -73)`. -/
def gSample1 : GeoLocation := ⟨40, -74, 100, 0, "g1"⟩

def gSample2 : GeoLocation := ⟨42, -72, 50, 0, "g2"⟩

def uSample1 : UtilLocation := ⟨10, 20, some 100⟩

def uSample2 : UtilLocation := ⟨30, 40, some 200⟩

/-- Timeline fixtures: an empty series, a series lacking the exact
`end - 14 days` key, and the spec's `{T0: 100, T0+14d: 200}` series. -/
def tlEmpty : TimelineLocation := ⟨"empty", []⟩

def tlGap : TimelineLocation := ⟨"gap", [(0, 100), (10, 150)]⟩

def tlSpec : TimelineLocation := ⟨"spec", [(0, 100), (14, 200)]⟩

/-- The spread vector `calculate_spread_vector tlSpec 14` produces. -/
def tlSpecVec : SpreadVector :=
  ⟨0, 14, 100, 200, 100, ((100 : ℤ) : ℚ) / (14 : ℚ), "spec"⟩

/-- Historical fixture for `calculate_spread_vectors`: location `(1, 2)` has
unchanged cases between day 0 and day 7, location `(3, 4)` gains 50. -/
def histSame0 : GeoLocation := ⟨1, 2, 100, 0, "a"⟩

def histSame7 : GeoLocation := ⟨1, 2, 100, 7, "a"⟩

def histGrow0 : GeoLocation := ⟨3, 4, 100, 0, "b"⟩

def histGrow7 : GeoLocation := ⟨3, 4, 150, 7, "b"⟩

/-! ## Helper lemmas on the grouping loop -/

theorem insertPair_join_perm (acc : List (ℤ × List GeoLocation)) (l : ℤ)
    (x : GeoLocation) :
    ((insertPair acc l x).map Prod.snd).flatten.Perm
      ((acc.map Prod.snd).flatten ++ [x]) := by
  induction acc with
  | nil => simp [insertPair]
  | cons p rest ih =>
    obtain ⟨k, v⟩ := p
    by_cases h : k = l
    · simp only [insertPair, if_pos h, List.map_cons, List.flatten_cons]
      rw [List.append_assoc, List.append_assoc]
      exact List.Perm.append_left v List.perm_append_comm
    · simp only [insertPair, if_neg h, List.map_cons, List.flatten_cons]
      rw [List.append_assoc]
      exact List.Perm.append_left v ih

theorem groupByLabel_foldl_perm (pairs : List (ℤ × GeoLocation)) :
    ∀ acc : List (ℤ × List GeoLocation),
      (((pairs.foldl (fun acc p => insertPair acc p.1 p.2) acc).map
          Prod.snd).flatten).Perm
        ((acc.map Prod.snd).flatten ++ pairs.map Prod.snd) := by
  induction pairs with
  | nil => intro acc; simp
  | cons p ps ih =>
    intro acc
    simp only [List.foldl_cons, List.map_cons]
    refine (ih (insertPair acc p.1 p.2)).trans ?_
    refine (List.Perm.append_right _ (insertPair_join_perm acc p.1 p.2)).trans ?_
    simp [List.append_assoc]

theorem groupByLabel_join_perm (pairs : List (ℤ × GeoLocation)) :
    ((groupByLabel pairs).map Prod.snd).flatten.Perm (pairs.map Prod.snd) := by
  simpa using groupByLabel_foldl_perm pairs []

theorem insertPair_mem_sound {Q : ℤ → GeoLocation → Prop}
    (acc : List (ℤ × List GeoLocation)) (l : ℤ) (y : GeoLocation)
    (hacc : ∀ p ∈ acc, ∀ x ∈ p.2, Q p.1 x) (hQ : Q l y) :
    ∀ p ∈ insertPair acc l y, ∀ x ∈ p.2, Q p.1 x := by
  induction acc with
  | nil =>
    intro p hp x hx
    simp only [insertPair, List.mem_singleton] at hp
    subst hp
    simp only [List.mem_singleton] at hx
    subst hx
    exact hQ
  | cons q rest ih =>
    obtain ⟨k, v⟩ := q
    intro p hp x hx
    by_cases h : k = l
    · simp only [insertPair, if_pos h, List.mem_cons] at hp
      rcases hp with hp | hp
      · subst hp
        simp only [List.mem_append, List.mem_singleton] at hx
        rcases hx with hx | hx
        · exact hacc (k, v) (List.mem_cons_self _ _) x hx
        · subst hx; simpa [h] using hQ
      · exact hacc p (List.mem_cons_of_mem _ hp) x hx
    · simp only [insertPair, if_neg h, List.mem_cons] at hp
      rcases hp with hp | hp
      · subst hp
        exact hacc (k, v) (List.mem_cons_self _ _) x hx
      · exact ih (fun r hr => hacc r (List.mem_cons_of_mem _ hr)) p hp x hx

theorem groupByLabel_foldl_sound {Q : ℤ → GeoLocation → Prop}
    (pairs : List (ℤ × GeoLocation)) :
    ∀ acc : List (ℤ × List GeoLocation),
      (∀ p ∈ acc, ∀ x ∈ p.2, Q p.1 x) →
      (∀ q ∈ pairs, Q q.1 q.2) →
      ∀ p ∈ pairs.foldl (fun acc p => insertPair acc p.1 p.2) acc,
        ∀ x ∈ p.2, Q p.1 x := by
  induction pairs with
  | nil => intro acc hacc _; simpa using hacc
  | cons q qs ih =>
    intro acc hacc hall
    simp only [List.foldl_cons]
    exact ih _
      (insertPair_mem_sound acc q.1 q.2 hacc (hall q (List.mem_cons_self _ _)))
      (fun r hr => hall r (List.mem_cons_of_mem _ hr))

theorem groupByLabel_mem_sound (pairs : List (ℤ × GeoLocation)) :
    ∀ p ∈ groupByLabel pairs, ∀ x ∈ p.2, (p.1, x) ∈ pairs := by
  exact groupByLabel_foldl_sound (Q := fun k x => (k, x) ∈ pairs) pairs []
    (by simp) (fun q hq => by simpa using hq)

theorem insertPair_self_mem (acc : List (ℤ × List GeoLocation)) (l : ℤ)
    (y : GeoLocation) :
    ∃ b, (l, b) ∈ insertPair acc l y ∧ y ∈ b := by
  induction acc with
  | nil => exact ⟨[y], by simp [insertPair], by simp⟩
  | cons q rest ih =>
    obtain ⟨k, v⟩ := q
    by_cases h : k = l
    · refine ⟨v ++ [y], ?_, by simp⟩
      simp [insertPair, if_pos h, h]
    · obtain ⟨b, hb, hy⟩ := ih
      exact ⟨b, by simp [insertPair, if_neg h, hb], hy⟩

theorem insertPair_preserves (acc : List (ℤ × List GeoLocation)) (l : ℤ)
    (y : GeoLocation) (k : ℤ) (b : List GeoLocation) (x : GeoLocation)
    (hb : (k, b) ∈ acc) (hx : x ∈ b) :
    ∃ b', (k, b') ∈ insertPair acc l y ∧ x ∈ b' := by
  induction acc with
  | nil => simp at hb
  | cons q rest ih =>
    obtain ⟨k0, v0⟩ := q
    rcases List.mem_cons.mp hb with hb | hb
    · injection hb with hk hv
      by_cases h : k0 = l
      · refine ⟨v0 ++ [y], ?_, List.mem_append_left _ (hv ▸ hx)⟩
        simp only [insertPair, if_pos h]
        exact hk ▸ List.mem_cons_self _ _
      · refine ⟨v0, ?_, hv ▸ hx⟩
        simp only [insertPair, if_neg h]
        exact hk ▸ List.mem_cons_self _ _
    · by_cases h : k0 = l
      · refine ⟨b, ?_, hx⟩
        simp only [insertPair, if_pos h]
        exact List.mem_cons_of_mem _ hb
      · obtain ⟨b', hb', hx'⟩ := ih hb
        refine ⟨b', ?_, hx'⟩
        simp only [insertPair, if_neg h]
        exact List.mem_cons_of_mem _ hb' 

theorem groupByLabel_foldl_preserves (pairs : List (ℤ × GeoLocation)) :
    ∀ (acc : List (ℤ × List GeoLocation)) (k : ℤ) (b : List GeoLocation)
      (x : GeoLocation), (k, b) ∈ acc → x ∈ b →
      ∃ b', (k, b') ∈ pairs.foldl (fun acc p => insertPair acc p.1 p.2) acc ∧
        x ∈ b' := by
  induction pairs with
  | nil => intro acc k b x hb hx; exact ⟨b, by simpa using hb, hx⟩
  | cons q qs ih =>
    intro acc k b x hb hx
    simp only [List.foldl_cons]
    obtain ⟨b', hb', hx'⟩ := insertPair_preserves acc q.1 q.2 k b x hb hx
    exact ih _ k b' x hb' hx'

theorem groupByLabel_complete (pairs : List (ℤ × GeoLocation)) :
    ∀ q ∈ pairs, ∃ b, (q.1, b) ∈ groupByLabel pairs ∧ q.2 ∈ b := by
  suffices h : ∀ (acc : List (ℤ × List GeoLocation)) q, q ∈ pairs →
      ∃ b, (q.1, b) ∈ pairs.foldl (fun acc p => insertPair acc p.1 p.2) acc ∧
        q.2 ∈ b by
    intro q hq; exact h [] q hq
  induction pairs with
  | nil => intro _ q hq; simp at hq
  | cons p ps ih =>
    intro acc q hq
    simp only [List.foldl_cons]
    rcases List.mem_cons.mp hq with hq | hq
    · subst hq
      obtain ⟨b, hb, hy⟩ := insertPair_self_mem acc q.1 q.2
      exact groupByLabel_foldl_preserves ps _ q.1 b q.2 hb hy
    · exact ih _ q hq

/-! ## Helper lemmas on the DBSCAN labels -/

theorem dbscanLabel_ge_neg_one (d : ℕ → ℕ → ℝ) (eps : ℝ) (minPts n i : ℕ) :
    -1 ≤ dbscanLabel d eps minPts n i := by
  unfold dbscanLabel
  split
  · exact le_trans (by norm_num) (Int.natCast_nonneg _)
  · split
    · exact le_trans (by norm_num) (Int.natCast_nonneg _)
    · exact le_refl _

theorem dbscanLabels_length (d : ℕ → ℕ → ℝ) (eps : ℝ) (minPts n : ℕ) :
    (dbscanLabels d eps minPts n).length = n := by
  simp [dbscanLabels]

theorem dbscanLabels_mem_ge (d : ℕ → ℕ → ℝ) (eps : ℝ) (minPts n : ℕ) :
    ∀ l ∈ dbscanLabels d eps minPts n, -1 ≤ l := by
  intro l hl
  obtain ⟨i, _, rfl⟩ := List.mem_map.mp hl
  exact dbscanLabel_ge_neg_one d eps minPts n _

/-- With a single input point and `min_samples ≥ 2`, the point cannot be
core (its neighborhood has at most one member) and has no core neighbor, so
DBSCAN labels it noise. -/
theorem dbscanLabels_singleton (d : ℕ → ℕ → ℝ) (eps : ℝ) (minPts : ℕ)
    (h2 : 2 ≤ minPts) : dbscanLabels d eps minPts 1 = [-1] := by
  have hnc : ∀ i, ¬ isCorePt d eps minPts 1 i := by
    intro i hc
    have hle : neighborCount d eps 1 i ≤ 1 := by
      have := Finset.card_filter_le (Finset.range 1)
        (fun j => d i j ≤ eps)
      simpa [neighborCount] using this
    have := le_trans hc hle
    omega
  have hlab : dbscanLabel d eps minPts 1 0 = -1 := by
    unfold dbscanLabel
    rw [if_neg (hnc 0), if_neg]
    rintro ⟨j, hj, -, hjc⟩
    interval_cases j
    exact hnc 0 hjc
  simp [dbscanLabels, List.range_succ, hlab]

theorem serviceLabels_length (eps_km : ℝ) (min_samples : ℕ)
    (locations : List GeoLocation) :
    (serviceLabels eps_km min_samples locations).length = locations.length := by
  simp [serviceLabels, dbscanLabels_length]

theorem serviceLabels_mem_ge (eps_km : ℝ) (min_samples : ℕ)
    (locations : List GeoLocation) :
    ∀ l ∈ serviceLabels eps_km min_samples locations, -1 ≤ l := by
  unfold serviceLabels
  exact dbscanLabels_mem_ge _ _ _ _

/-- Concrete evaluation: clustering one location with `min_samples ≥ 2`
labels it noise, and the grouping loop returns it under the key `-1`. -/
theorem identify_clusters_singleton (eps_km : ℝ) (min_samples : ℕ)
    (h2 : 2 ≤ min_samples) (loc : GeoLocation) :
    identify_clusters eps_km min_samples [loc] = [(-1, [loc])] := by
  unfold identify_clusters
  rw [if_neg (by simp)]
  have : serviceLabels eps_km min_samples [loc] = [-1] := by
    unfold serviceLabels
    simpa using dbscanLabels_singleton _ _ min_samples h2
  rw [this]
  rfl

theorem insertPair_nonempty (acc : List (ℤ × List GeoLocation)) (l : ℤ)
    (y : GeoLocation) (hacc : ∀ p ∈ acc, p.2 ≠ []) :
    ∀ p ∈ insertPair acc l y, p.2 ≠ [] := by
  induction acc with
  | nil =>
    intro p hp
    simp only [insertPair, List.mem_singleton] at hp
    subst hp
    simp
  | cons q rest ih =>
    obtain ⟨k, v⟩ := q
    intro p hp
    by_cases h : k = l
    · simp only [insertPair, if_pos h, List.mem_cons] at hp
      rcases hp with hp | hp
      · subst hp; simp
      · exact hacc p (List.mem_cons_of_mem _ hp)
    · simp only [insertPair, if_neg h, List.mem_cons] at hp
      rcases hp with hp | hp
      · subst hp; exact hacc (k, v) (List.mem_cons_self _ _)
      · exact ih (fun r hr => hacc r (List.mem_cons_of_mem _ hr)) p hp

theorem groupByLabel_nonempty (pairs : List (ℤ × GeoLocation)) :
    ∀ p ∈ groupByLabel pairs, p.2 ≠ [] := by
  suffices h : ∀ acc : List (ℤ × List GeoLocation), (∀ p ∈ acc, p.2 ≠ []) →
      ∀ p ∈ pairs.foldl (fun acc p => insertPair acc p.1 p.2) acc, p.2 ≠ [] from
    h [] (by simp)
  induction pairs with
  | nil => intro acc hacc; simpa using hacc
  | cons q qs ih =>
    intro acc hacc
    simp only [List.foldl_cons]
    exact ih _ (insertPair_nonempty acc q.1 q.2 hacc)

/-! ## Claim theorems: clustering -/

/-- C3: the clustering output partitions the input: the concatenation of all
returned buckets is a permutation of the input location list, so every input
location (occurrence) appears in exactly one bucket, none is lost, none is
duplicated. -/
theorem identify_clusters_partition (eps_km : ℝ) (min_samples : ℕ)
    (locations : List GeoLocation) :
    (((identify_clusters eps_km min_samples locations).map
        Prod.snd).flatten).Perm locations := by
  by_cases h : locations.isEmpty
  · rw [List.isEmpty_iff] at h
    subst h
    simp [identify_clusters]
  · unfold identify_clusters
    rw [if_neg h]
    refine (groupByLabel_join_perm _).trans ?_
    rw [List.map_snd_zip _ _ (le_of_eq (serviceLabels_length _ _ _).symm)]

/-- C8: clustering an empty location list returns the empty mapping by the
early `if not locations: return {}` branch, not by raising. -/
theorem identify_clusters_empty (eps_km : ℝ) (min_samples : ℕ) :
    identify_clusters eps_km min_samples [] = [] := by
  simp [identify_clusters]

/-- C1 counterexample: with the default configuration (`eps_km = 100`,
`min_samples = 5`) a single location is DBSCAN noise, and
`identify_clusters` returns it under the numeric key `-1` — the returned
mapping does not contain only labels `≥ 0`, and the noise point is not
dropped. -/
theorem identify_clusters_noise_counterexample :
    identify_clusters 100 5 [nycSample] = [(-1, [nycSample])] ∧
      ¬ (0 : ℤ) ≤ (-1 : ℤ) :=
  ⟨identify_clusters_singleton 100 5 (by norm_num) nycSample, by norm_num⟩

/-- C1 (amended): for every location list, every key of the returned mapping
is an integer label `≥ -1`; each bucket holds exactly locations that were
assigned that bucket's label (so noise locations appear only under `-1` and
are never merged into a cluster with label `≥ 0`); and every labelled
location — noise included — is returned in some bucket, none is dropped. -/
theorem identify_clusters_noise_amended (eps_km : ℝ) (min_samples : ℕ)
    (locations : List GeoLocation) :
    (∀ p ∈ identify_clusters eps_km min_samples locations,
        -1 ≤ p.1 ∧ ∀ x ∈ p.2,
          (p.1, x) ∈ (serviceLabels eps_km min_samples locations).zip locations) ∧
    (∀ q ∈ (serviceLabels eps_km min_samples locations).zip locations,
        ∃ b, (q.1, b) ∈ identify_clusters eps_km min_samples locations ∧
          q.2 ∈ b) := by
  by_cases h : locations.isEmpty
  · rw [List.isEmpty_iff] at h
    subst h
    constructor
    · intro p hp
      simp [identify_clusters] at hp
    · intro q hq
      rw [List.zip_nil_right] at hq
      simp at hq
  · have hrw : identify_clusters eps_km min_samples locations =
        groupByLabel ((serviceLabels eps_km min_samples locations).zip locations) := by
      unfold identify_clusters
      rw [if_neg h]
    constructor
    · intro p hp
      rw [hrw] at hp
      have hmem := groupByLabel_mem_sound _ p hp
      refine ⟨?_, hmem⟩
      obtain ⟨x, hx⟩ :=
        List.exists_mem_of_ne_nil _ (groupByLabel_nonempty _ p hp)
      exact serviceLabels_mem_ge eps_km min_samples locations p.1
        (List.of_mem_zip (hmem x hx)).1
    · intro q hq
      rw [hrw]
      exact groupByLabel_complete _ q hq

/-- Witness for C1 (amended): the concrete noise bucket `(-1, [nycSample])`
of `identify_clusters 100 5 [nycSample]` satisfies the amended claim. -/
theorem identify_clusters_noise_amended_witness :
    -1 ≤ (-1 : ℤ) ∧ ∀ x ∈ [nycSample],
      ((-1 : ℤ), x) ∈ (serviceLabels 100 5 [nycSample]).zip [nycSample] :=
  (identify_clusters_noise_amended 100 5 [nycSample]).1 (-1, [nycSample])
    (by rw [identify_clusters_singleton 100 5 (by norm_num) nycSample]
        exact List.mem_singleton_self _)

/-! ## Claim theorems: distance -/

theorem hav_a_comm (lat1 lon1 lat2 lon2 : ℝ) :
    hav_a lat2 lon2 lat1 lon1 = hav_a lat1 lon1 lat2 lon2 := by
  unfold hav_a
  rw [show (deg2rad lat1 - deg2rad lat2) / 2 =
      -((deg2rad lat2 - deg2rad lat1) / 2) by ring,
    show (deg2rad lon1 - deg2rad lon2) / 2 =
      -((deg2rad lon2 - deg2rad lon1) / 2) by ring,
    Real.sin_neg, Real.sin_neg]
  ring

/-- C7: the utility haversine distance is symmetric:
`distance(a, b) = distance(b, a)` for all real inputs, with no restriction
on the coordinates. -/
theorem haversine_distance_symm (lat1 lon1 lat2 lon2 : ℝ) :
    haversine_distance lat1 lon1 lat2 lon2 =
      haversine_distance lat2 lon2 lat1 lon1 := by
  unfold haversine_distance
  rw [hav_a_comm lat1 lon1 lat2 lon2]

/-! ## Claim theorems: heatmaps -/

/-- C10: `create_heatmap` with an empty location list but both center
coordinates supplied succeeds, returning the supplied center and an empty
heat-point list. -/
theorem create_heatmap_empty_with_center (clat clon : ℚ) :
    create_heatmap [] (some clat) (some clon) =
      .ok { center := (clat, clon), zoom_start := 4, heat_data := [] } := rfl

/-- C2 counterexample: the service heatmap builder fails on an empty
location list even though a center was supplied, while the claim allows
failure only when no center was supplied. -/
theorem generate_risk_heatmap_center_counterexample :
    isFailure (generate_risk_heatmap [] (some (0, 0))) = true ∧
      some ((0 : ℚ), (0 : ℚ)) ≠ none := ⟨rfl, by simp⟩

/-- C2 (amended): the service builder `generate_risk_heatmap` fails exactly
when the location list is empty — even when a center is supplied; the
utility builder `create_heatmap` fails exactly when the list is empty and a
full center is not supplied; with a non-empty list and no supplied center,
both succeed and compute the center as the arithmetic mean of the input
latitudes and longitudes. -/
theorem heatmap_failure_amended :
    (∀ (locations : List GeoLocation) (center : Option (ℚ × ℚ)),
        isFailure (generate_risk_heatmap locations center) = true ↔
          locations = []) ∧
    (∀ (locations : List UtilLocation) (clat clon : Option ℚ),
        isFailure (create_heatmap locations clat clon) = true ↔
          locations = [] ∧ (clat = none ∨ clon = none)) ∧
    (∀ locations : List GeoLocation, locations ≠ [] →
        generate_risk_heatmap locations none =
          .ok { center := (meanLat locations, meanLon locations)
                zoom_start := 4
                heat_data := heatPoints locations }) ∧
    (∀ locations : List UtilLocation, locations ≠ [] →
        create_heatmap locations none none =
          .ok { center := (utilMeanLat locations, utilMeanLon locations)
                zoom_start := 4
                heat_data := utilHeatPoints locations }) := by
  refine ⟨?_, ?_, ?_, ?_⟩
  · intro locations center
    unfold generate_risk_heatmap
    by_cases h : locations.isEmpty
    · rw [if_pos h]
      simp [isFailure, List.isEmpty_iff.mp h]
    · rw [if_neg h]
      simp only [isFailure]
      exact ⟨fun hf => by simp at hf, fun he => absurd (List.isEmpty_iff.mpr he) h⟩
  · intro locations clat clon
    unfold create_heatmap
    rcases clat with _ | a <;> rcases clon with _ | b <;>
      cases locations <;> simp [isFailure]
  · intro locations hne
    unfold generate_risk_heatmap
    rw [if_neg (fun h => hne (List.isEmpty_iff.mp h))]
    rfl
  · intro locations hne
    unfold create_heatmap
    rw [if_pos (by simp), if_neg (by simpa using hne)]

/-- Witness for C2 (amended): concrete evaluations — the service builder
fails on `[]` with a supplied center and succeeds on two locations with the
mean center `(41, -73)`; the utility builder fails on `[]` with a missing
center coordinate and succeeds on two locations with mean center `(20, 30)`. -/
theorem heatmap_failure_amended_witness :
    isFailure (generate_risk_heatmap [] (some (5, 6))) = true ∧
    isFailure (create_heatmap [] (some 5) none) = true ∧
    generate_risk_heatmap [gSample1, gSample2] none =
      .ok { center := (41, -73), zoom_start := 4
            heat_data := [(40, -74, 100), (42, -72, 50)] } ∧
    create_heatmap [uSample1, uSample2] none none =
      .ok { center := (20, 30), zoom_start := 4
            heat_data := [(10, 20, 100), (30, 40, 200)] } := by
  refine ⟨?_, ?_, ?_, ?_⟩
  · exact (heatmap_failure_amended.1 [] (some (5, 6))).mpr rfl
  · exact (heatmap_failure_amended.2.1 [] (some 5) none).mpr ⟨rfl, Or.inr rfl⟩
  · rw [heatmap_failure_amended.2.2.1 [gSample1, gSample2] (by simp)]
    norm_num [meanLat, meanLon, heatPoints, gSample1, gSample2]
  · rw [heatmap_failure_amended.2.2.2 [uSample1, uSample2] (by simp)]
    norm_num [utilMeanLat, utilMeanLon, uSample1, uSample2]
    rfl

/-! ## Claim theorems: spread vectors -/

/-- C4: the per-location spread-vector calculation returns `none` — a normal
absent result, not an error — whenever the historical series is empty, and
whenever the series lacks a key exactly equal to the latest timestamp minus
the window; the lookup demands an exact key match (`lookupTL`), performing
no interpolation or nearest-neighbour search. -/
theorem calculate_spread_vector_absent (loc : TimelineLocation) (days : ℤ) :
    (loc.timeline = [] → calculate_spread_vector loc days = none) ∧
    (∀ e, (sortKeys (loc.timeline.map Prod.fst)).getLast? = some e →
      lookupTL loc.timeline (e - days) = none →
      calculate_spread_vector loc days = none) := by
  constructor
  · intro h
    simp [calculate_spread_vector, h, sortKeys]
  · intro e he hl
    unfold calculate_spread_vector
    rw [he]
    cases hev : lookupTL loc.timeline e <;> simp [hl, hev]

/-- Witness for C4: an empty series yields `none`, and the series
`{day 0: 100, day 10: 150}` with a 14-day window yields `none` because no
key equals `10 − 14 = −4`. -/
theorem calculate_spread_vector_absent_witness :
    calculate_spread_vector tlEmpty 14 = none ∧
      calculate_spread_vector tlGap 14 = none :=
  ⟨(calculate_spread_vector_absent tlEmpty 14).1 rfl,
    (calculate_spread_vector_absent tlGap 14).2 10 rfl rfl⟩

/-- C5: whenever the spread-vector calculation produces a result, the total
increase is the case count at the end timestamp minus the case count at the
start timestamp (both read by exact key lookup), the start timestamp is the
end minus the window, and the daily increase is the total divided by the
window length in exact (real) division — in particular the sign is
preserved: a negative total yields a negative daily rate. -/
theorem calculate_spread_vector_result (loc : TimelineLocation) (days : ℤ)
    (sv : SpreadVector) (hd : 0 < days)
    (h : calculate_spread_vector loc days = some sv) :
    sv.total_increase = sv.end_cases - sv.start_cases ∧
    lookupTL loc.timeline sv.start_date = some sv.start_cases ∧
    lookupTL loc.timeline sv.end_date = some sv.end_cases ∧
    sv.start_date = sv.end_date - days ∧
    sv.daily_increase = (sv.total_increase : ℚ) / (days : ℚ) ∧
    (sv.total_increase < 0 → sv.daily_increase < 0) := by
  unfold calculate_spread_vector at h
  cases hlast : (sortKeys (loc.timeline.map Prod.fst)).getLast? with
  | none => rw [hlast] at h; simp at h
  | some e =>
    rw [hlast] at h
    cases hs : lookupTL loc.timeline (e - days) with
    | none => simp [hs] at h
    | some sc =>
      cases hev : lookupTL loc.timeline e with
      | none => simp [hs, hev] at h
      | some ec =>
        simp only [hs, hev, Option.some.injEq] at h
        subst h
        refine ⟨rfl, hs, hev, rfl, rfl, ?_⟩
        intro hneg
        have hneg' : ec - sc < 0 := hneg
        show ((ec - sc : ℤ) : ℚ) / (days : ℚ) < 0
        apply div_neg_of_neg_of_pos
        · exact_mod_cast hneg'
        · exact_mod_cast hd

/-- Witness for C5: the spec's series `{T0: 100, T0+14d: 200}` with a
14-day window produces `total_increase = 100` and
`daily_increase = 100/14 = 50/7 ≈ 7.14`. -/
theorem calculate_spread_vector_result_witness :
    calculate_spread_vector tlSpec 14 = some tlSpecVec ∧
    tlSpecVec.total_increase = tlSpecVec.end_cases - tlSpecVec.start_cases ∧
    tlSpecVec.daily_increase =
      ((tlSpecVec.total_increase : ℚ)) / ((14 : ℤ) : ℚ) ∧
    tlSpecVec.total_increase = 100 ∧ tlSpecVec.daily_increase = 50 / 7 := by
  have h : calculate_spread_vector tlSpec 14 = some tlSpecVec := rfl
  have hmain := calculate_spread_vector_result tlSpec 14 tlSpecVec
    (by norm_num) h
  exact ⟨h, hmain.1, hmain.2.2.2.2.1, by norm_num [tlSpecVec],
    by norm_num [tlSpecVec]⟩

/-- C9: every `(latitude, longitude, magnitude)` triple the service's
`calculate_spread_vectors` returns has magnitude ≠ 0 (in float terms,
`magnitude != 0`; the `NaN` magnitude of a half-matched key also passes that
test and is modelled `none`): locations whose case count is unchanged
between the start and end dates of the window are omitted from the output. -/
theorem calculate_spread_vectors_nonzero (historical : List GeoLocation)
    (days : ℤ) (vs : List (ℚ × ℚ × Option ℤ))
    (h : calculate_spread_vectors historical days = .ok vs) :
    ∀ v ∈ vs, v.2.2 ≠ some 0 := by
  unfold calculate_spread_vectors at h
  cases hmax : (historical.map (·.timestamp)).max? with
  | none => rw [hmax] at h; simp at h
  | some e =>
    rw [hmax] at h
    simp only [Except.ok.injEq] at h
    subst h
    intro v hv
    obtain ⟨k, -, hk⟩ := List.mem_filterMap.mp hv
    by_cases hz : caseChange historical (e - days) e k ≠ some 0
    · rw [if_pos hz] at hk
      cases hk
      exact hz
    · rw [if_neg hz] at hk
      cases hk

/-- Witness for C9: on the fixture where location `(1, 2)` is unchanged
(100 → 100) and `(3, 4)` grows (100 → 150) over the 7-day window, the output
is exactly `[(3, 4, 50)]`, whose single magnitude is nonzero. -/
theorem calculate_spread_vectors_nonzero_witness :
    calculate_spread_vectors [histSame0, histSame7, histGrow0, histGrow7] 7 =
      .ok [(3, 4, some 50)] ∧
    (((3 : ℚ), (4 : ℚ), (some 50 : Option ℤ)) :
        ℚ × ℚ × Option ℤ).2.2 ≠ some 0 := by
  have h : calculate_spread_vectors [histSame0, histSame7, histGrow0, histGrow7] 7 =
      .ok [(3, 4, some 50)] := by rfl
  exact ⟨h, calculate_spread_vectors_nonzero _ 7 _ h _ (List.mem_singleton_self _)⟩

/-! ## Claim theorem: the two haversine implementations agree -/

theorem deg2rad_bound {lat : ℝ} (ha : -90 ≤ lat) (hb : lat ≤ 90) :
    -(Real.pi / 2) ≤ deg2rad lat ∧ deg2rad lat ≤ Real.pi / 2 := by
  have hp : (0 : ℝ) ≤ Real.pi / 180 := by positivity
  constructor
  · calc -(Real.pi / 2) = -90 * (Real.pi / 180) := by ring
    _ ≤ lat * (Real.pi / 180) := mul_le_mul_of_nonneg_right ha hp
  · calc deg2rad lat = lat * (Real.pi / 180) := rfl
    _ ≤ 90 * (Real.pi / 180) := mul_le_mul_of_nonneg_right hb hp
    _ = Real.pi / 2 := by ring

theorem hav_a_nonneg {lat1 lon1 lat2 lon2 : ℝ} (h1a : -90 ≤ lat1)
    (h1b : lat1 ≤ 90) (h2a : -90 ≤ lat2) (h2b : lat2 ≤ 90) :
    0 ≤ hav_a lat1 lon1 lat2 lon2 := by
  have hb1 := deg2rad_bound h1a h1b
  have hb2 := deg2rad_bound h2a h2b
  have hc1 : 0 ≤ Real.cos (deg2rad lat1) :=
    Real.cos_nonneg_of_mem_Icc ⟨hb1.1, hb1.2⟩
  have hc2 : 0 ≤ Real.cos (deg2rad lat2) :=
    Real.cos_nonneg_of_mem_Icc ⟨hb2.1, hb2.2⟩
  exact add_nonneg (sq_nonneg _)
    (mul_nonneg (mul_nonneg hc1 hc2) (sq_nonneg _))

theorem hav_a_le_one {lat1 lon1 lat2 lon2 : ℝ} (h1a : -90 ≤ lat1)
    (h1b : lat1 ≤ 90) (h2a : -90 ≤ lat2) (h2b : lat2 ≤ 90) :
    hav_a lat1 lon1 lat2 lon2 ≤ 1 := by
  have hb1 := deg2rad_bound h1a h1b
  have hb2 := deg2rad_bound h2a h2b
  have hc1 : 0 ≤ Real.cos (deg2rad lat1) :=
    Real.cos_nonneg_of_mem_Icc ⟨hb1.1, hb1.2⟩
  have hc2 : 0 ≤ Real.cos (deg2rad lat2) :=
    Real.cos_nonneg_of_mem_Icc ⟨hb2.1, hb2.2⟩
  have hprod : 0 ≤ Real.cos (deg2rad lat1) * Real.cos (deg2rad lat2) :=
    mul_nonneg hc1 hc2
  have hs2 : Real.sin ((deg2rad lon2 - deg2rad lon1) / 2) ^ 2 ≤ 1 :=
    Real.sin_sq_le_one _
  have hhalf : Real.sin ((deg2rad lat2 - deg2rad lat1) / 2) ^ 2 =
      1 / 2 - Real.cos (deg2rad lat2 - deg2rad lat1) / 2 := by
    rw [Real.sin_sq_eq_half_sub,
      show 2 * ((deg2rad lat2 - deg2rad lat1) / 2) =
        deg2rad lat2 - deg2rad lat1 by ring]
  have hsub := Real.cos_sub (deg2rad lat2) (deg2rad lat1)
  have hadd := Real.cos_add (deg2rad lat1) (deg2rad lat2)
  have hone := Real.cos_le_one (deg2rad lat1 + deg2rad lat2)
  have hmul := mul_le_mul_of_nonneg_left hs2 hprod
  unfold hav_a
  nlinarith [hhalf, hsub, hadd, hone, hmul]

theorem atan2_sqrt_eq_arcsin {a : ℝ} (h0 : 0 ≤ a) (h1 : a ≤ 1) :
    atan2 (Real.sqrt a) (Real.sqrt (1 - a)) = Real.arcsin (Real.sqrt a) := by
  rcases eq_or_lt_of_le h1 with heq | hlt
  · subst heq
    norm_num [atan2, Real.arcsin_one]
  · have hx : 0 < Real.sqrt (1 - a) := Real.sqrt_pos.mpr (by linarith)
    have hy : 0 ≤ Real.sqrt a := Real.sqrt_nonneg a
    unfold atan2
    rw [if_pos hx]
    have hmem : Real.sqrt a ∈ Set.Ioo (-(1 : ℝ)) 1 := by
      constructor
      · linarith
      · have hlt1 : Real.sqrt a < Real.sqrt 1 := Real.sqrt_lt_sqrt h0 hlt
        simpa using hlt1
    rw [Real.arcsin_eq_arctan hmem, Real.sq_sqrt h0]

/-- C6: the utility `haversine_distance` (atan2 form) and the service's
haversine method (arcsin form) return the same distance for every pair of
geographic points (latitudes within −90…90 degrees; longitudes
unrestricted): for `a ∈ [0, 1]`, `atan2(√a, √(1−a)) = arcsin(√a)`. -/
theorem haversine_implementations_agree (lat1 lon1 lat2 lon2 : ℝ)
    (h1a : -90 ≤ lat1) (h1b : lat1 ≤ 90) (h2a : -90 ≤ lat2) (h2b : lat2 ≤ 90) :
    haversine_distance lat1 lon1 lat2 lon2 =
      _haversine_distance lat1 lon1 lat2 lon2 := by
  unfold haversine_distance _haversine_distance
  rw [atan2_sqrt_eq_arcsin (hav_a_nonneg h1a h1b h2a h2b)
    (hav_a_le_one h1a h1b h2a h2b)]

/-- Witness for C6: agreement at the spec's sample pair `(0,0)`–`(1,1)`. -/
theorem haversine_implementations_agree_witness :
    haversine_distance 0 0 1 1 = _haversine_distance 0 0 1 1 :=
  haversine_implementations_agree 0 0 1 1 (by norm_num) (by norm_num)
    (by norm_num) (by norm_num)

end CovidGeo
